import Mathlib

/-!
Verification of the xopen package (buffered, compression-transparent stream
opening) against its natural-language specification.  The Go source of
`xopen.go` is shallowly embedded below: Go strings become `List Char`,
byte streams become explicit lists of byte values (`Nat`), the OS, HTTP,
subprocess and codec collaborators become explicit oracles, and every
fallible operation returns `Except`.
-/

namespace Xopen

/-- Convert a Lean string literal to the `List Char` representation used for
Go strings throughout this development. -/
def strL (s : String) : List Char := s.data

/-- Model of Go `strings.Split(s, sep)` for a single-character separator:
split around every occurrence of `c`; consecutive separators produce empty
fields, and the result is never the empty list. -/
def splitCh (c : Char) : List Char → List (List Char)
  | [] => [[]]
  | x :: xs =>
    match splitCh c xs with
    | [] => [[]]
    | y :: ys => if x = c then [] :: y :: ys else (x :: y) :: ys

/-- Model of Go `strings.ToLower` restricted to the ASCII range (the only
range exercised by the suffix checks in `WopenFile`). -/
def toLowerAscii (s : List Char) : List Char := s.map Char.toLower

/-- The error values the embedded code can produce.  `noContent` is
`ErrNoContent` (xopen.go line 25), `dirNotSupported` is `ErrDirNotSupported`
(line 28), `eofErr` is the collaborator error `io.EOF`, `ioErr` stands for a
genuine (non-EOF) I/O failure of an underlying transport, `notFound` is the
OS not-exist error, and `strErr` carries the message of an error built with
`errors.New`/`fmt.Errorf`. -/
inductive GoErr
  | noContent
  | dirNotSupported
  | eofErr
  | ioErr
  | notFound
  | strErr (msg : List Char)
  | codecErr
deriving DecidableEq

/-- How a raw byte stream ends once its data is exhausted: a normal end of
stream (`io.EOF`) or a genuine read failure. -/
inductive Term
  | eof
  | ioErr
deriving DecidableEq

/-- A raw byte source: the bytes it will deliver, and what reading past them
reports.  This models an `io.Reader` wrapped by `bufio.NewReaderSize`. -/
structure Stream where
  data : List Nat
  term : Term
deriving DecidableEq

/-- The error reported when a read reaches the stream's end. -/
def Term.toErr : Term → GoErr
  | .eof => .eofErr
  | .ioErr => .ioErr

/-- Model of `bufio.Reader.Peek(n)`: returns the next `n` bytes without
consuming them, or the underlying error when fewer than `n` bytes can be
buffered (the requested lengths here are far below the 65536-byte buffer, so
`ErrBufferFull` cannot occur). -/
def peek (s : Stream) (n : Nat) : Except GoErr (List Nat) :=
  if n ≤ s.data.length then .ok (s.data.take n) else .error s.term.toErr

/-- xopen.go lines 87-99: `CheckBytes` peeks `buf.length` bytes and compares
them with `buf`; every peek failure is reported as `ErrNoContent`.  The
result mirrors Go's `(bool, error)` pair. -/
def CheckBytes (b : Stream) (buf : List Nat) : Bool × Option GoErr :=
  match peek b buf.length with
  | .error _ => (false, some .noContent)
  | .ok m => (decide (m = buf), none)

/-- The gzip signature (xopen.go line 32). -/
def gzipMagic : List Nat := [0x1f, 0x8b]

/-- The xz signature (xopen.go line 37). -/
def xzMagic : List Nat := [0xfd, 0x37, 0x7a, 0x58, 0x5a, 0x00]

/-- The zstd signature (xopen.go line 42). -/
def zstMagic : List Nat := [0x28, 0xB5, 0x2f, 0xfd]

/-- xopen.go lines 31-33. -/
def IsGzip (b : Stream) : Bool × Option GoErr := CheckBytes b gzipMagic

/-- xopen.go lines 36-38. -/
def IsXz (b : Stream) : Bool × Option GoErr := CheckBytes b xzMagic

/-- xopen.go lines 41-43. -/
def IsZst (b : Stream) : Bool × Option GoErr := CheckBytes b zstMagic

/-- Model of Go `unicode/utf8.DecodeRune` on a byte list: returns the first
decoded code point and the number of bytes it consumed; invalid, truncated,
overlong and surrogate encodings yield `(0xFFFD, 1)` exactly as in Go.  This
is the decoding performed by `bufio.Reader.ReadRune`. -/
def utf8DecodeRune : List Nat → Nat × Nat
  | [] => (0xFFFD, 0)
  | b0 :: tl =>
    if b0 < 0x80 then (b0, 1)
    else if 0xC2 ≤ b0 ∧ b0 ≤ 0xDF then
      match tl with
      | b1 :: _ =>
        if 0x80 ≤ b1 ∧ b1 ≤ 0xBF then ((b0 - 0xC0) * 64 + (b1 - 0x80), 2)
        else (0xFFFD, 1)
      | [] => (0xFFFD, 1)
    else if 0xE0 ≤ b0 ∧ b0 ≤ 0xEF then
      match tl with
      | b1 :: b2 :: _ =>
        if ((if b0 = 0xE0 then 0xA0 else 0x80) ≤ b1 ∧
             b1 ≤ (if b0 = 0xED then 0x9F else 0xBF)) ∧
           (0x80 ≤ b2 ∧ b2 ≤ 0xBF) then
          ((b0 - 0xE0) * 4096 + (b1 - 0x80) * 64 + (b2 - 0x80), 3)
        else (0xFFFD, 1)
      | _ => (0xFFFD, 1)
    else if 0xF0 ≤ b0 ∧ b0 ≤ 0xF4 then
      match tl with
      | b1 :: b2 :: b3 :: _ =>
        if ((if b0 = 0xF0 then 0x90 else 0x80) ≤ b1 ∧
             b1 ≤ (if b0 = 0xF4 then 0x8F else 0xBF)) ∧
           (0x80 ≤ b2 ∧ b2 ≤ 0xBF) ∧ (0x80 ≤ b3 ∧ b3 ≤ 0xBF) then
          ((b0 - 0xF0) * 262144 + (b1 - 0x80) * 4096 + (b2 - 0x80) * 64 + (b3 - 0x80), 4)
        else (0xFFFD, 1)
      | _ => (0xFFFD, 1)
    else (0xFFFD, 1)

/-- xopen.go lines 190-197, the BOM step at the end of `Buf`: `ReadRune` on
the decoded buffered stream (an error — only possible when no byte is
available — becomes `ErrNoContent`); a decoded U+FEFF stays consumed, any
other first rune is `UnreadRune`-restored, leaving the data unchanged. -/
def bomStrip (d : List Nat) : Except GoErr (List Nat) :=
  match d with
  | [] => .error .noContent
  | _ :: _ =>
    if (utf8DecodeRune d).1 = 0xFEFF then .ok (d.drop (utf8DecodeRune d).2)
    else .ok d

/-- xopen.go lines 101-106: the composite reader returned by `Ropen`/`Buf`.
`data` is what the outer buffered reader will deliver, `rdrClosable` records
whether the raw source `rdr` is an `io.ReadCloser` (the type switch in
`Reader.Close`), and `gz` records whether the `gz io.ReadCloser` field was
set — the code sets it only on the gzip path (line 167); the xz reader and
the zstd decoder are kept in the local variable `rd` and discarded. -/
structure Reader where
  data : List Nat
  rdrClosable : Bool
  gz : Bool
deriving DecidableEq

/-- A teardown action performed by `Reader.Close`. -/
inductive RAct
  | closeGzip
  | closeRdr
deriving DecidableEq

/-- xopen.go lines 109-117: `Reader.Close` closes the gzip transform when
present, then the raw source when it is a closer; both results are
discarded and the method returns `nil`. -/
def Reader.Close (r : Reader) : List RAct × Option GoErr :=
  ((if r.gz then [RAct.closeGzip] else []) ++
   (if r.rdrClosable then [RAct.closeRdr] else []), none)

/-- The compression format a transform decodes/encodes. -/
inductive Fmt
  | gz
  | xz
  | zst
deriving DecidableEq

/-- The codec collaborators (black-box stream transformers per the spec):
given the format and the raw bytes, produce the decoded bytes or the codec's
construction/decode error (`gzip.NewReader` / `xz.NewReader` /
`zstd.NewReader`). -/
def DecodeOracle := Fmt → List Nat → Except GoErr (List Nat)

/-- xopen.go lines 160-199: `Buf`.  Sniffs gzip, then xz, then zstd; a sniff
error other than `io.EOF` aborts (note `CheckBytes` only ever reports
`ErrNoContent`, never `io.EOF`); on a match the matching decoder is opened
over the buffer and its output re-buffered; finally the BOM step runs.  Only
the gzip decoder is stored in the `Reader` (local `rdr`); the xz and zstd
decoders live in the local `rd` and are dropped.  `rdrClosable` says whether
the original raw reader `r` is an `io.ReadCloser`. -/
def Buf (deco : DecodeOracle) (s : Stream) (rdrClosable : Bool) : Except GoErr Reader :=
  let (isGz, e1) := IsGzip s
  if e1 ≠ none ∧ e1 ≠ some .eofErr then .error (e1.getD .ioErr)
  else if isGz then
    match deco .gz s.data with
    | .error e => .error e
    | .ok d => (bomStrip d).map fun d2 => ⟨d2, rdrClosable, true⟩
  else
    let (isXz, e2) := IsXz s
    if e2 ≠ none ∧ e2 ≠ some .eofErr then .error (e2.getD .ioErr)
    else if isXz then
      match deco .xz s.data with
      | .error e => .error e
      | .ok d => (bomStrip d).map fun d2 => ⟨d2, rdrClosable, false⟩
    else
      let (isZst, e3) := IsZst s
      if e3 ≠ none ∧ e3 ≠ some .eofErr then .error (e3.getD .ioErr)
      else if isZst then
        match deco .zst s.data with
        | .error e => .error e
        | .ok d => (bomStrip d).map fun d2 => ⟨d2, rdrClosable, false⟩
      else
        (bomStrip s.data).map fun d2 => ⟨d2, rdrClosable, false⟩

/-- The identity/user-directory collaborator (`os/user`): the current user's
home directory, and home-directory lookup by user name, each possibly
failing. -/
structure UserDB where
  current : Except GoErr (List Char)
  lookup : List Char → Except GoErr (List Char)

/-- First element of a split result (`cmdStrs[0]` / `strings.Split(...)[0]`;
the split is never empty, so the default is unreachable). -/
def headSplit : List (List Char) → List Char
  | [] => []
  | x :: _ => x

/-- xopen.go lines 56-74: `ExpandUser`.  A path not starting with `~` is
returned unchanged; `~` alone or `~/...` consults the current user,
`~name...` looks up `name` (the text before the first `/`); on success the
result is `home ++ "/" ++ path[1:]` — note the looked-up name is not removed
from `path[1:]`. -/
def ExpandUser (db : UserDB) (path : List Char) : Except GoErr (List Char) :=
  match path with
  | [] => .ok []
  | c :: rest =>
    if c ≠ '~' then .ok (c :: rest)
    else
      match (if rest = [] ∨ rest.head? = some '/' then db.current
             else db.lookup (headSplit (splitCh '/' rest))) with
      | .error e => .error e
      | .ok home => .ok (home ++ '/' :: rest)

/-- xopen.go lines 243-249: the subprocess command computed for a `|...`
descriptor (`s` is the text after the `|`).  The text is split on single
spaces; the remaining tokens are passed as arguments only in the
`len(cmdStrs) == 2` branch — every other token count spawns `cmdStrs[0]`
with no arguments. -/
def pipeCommand (s : List Char) : List Char × List (List Char) :=
  match splitCh ' ' s with
  | [] => ([], [])
  | t :: rest => if (t :: rest).length = 2 then (t, rest) else (t, [])

/-- A filesystem entry: a regular file with contents, or a directory. -/
inductive FsEntry
  | file (data : List Nat)
  | dir
deriving DecidableEq

/-- The filesystem collaborator: an association of paths to entries
(`os.Stat` answers `none` with a not-exist error for absent paths). -/
def FS := List (List Char × FsEntry)

/-- Path lookup in the modeled filesystem. -/
def lookupFS : FS → List Char → Option FsEntry
  | [], _ => none
  | (q, e) :: tl, p => if q = p then some e else lookupFS tl p

/-- The environment `Ropen` runs in: whether standard input is attached to a
pipe (`IsStdin`), the bytes it carries, the subprocess collaborator
(`exec.Command` + `StdoutPipe` + `Start`, returning the child's stdout
stream or a start failure), the HTTP collaborator (`http.Get`, returning
status code and body), the user database, the filesystem and the codec
oracle. -/
structure REnv where
  stdinAttached : Bool
  stdin : Stream
  spawn : List Char → List (List Char) → Except GoErr Stream
  http : List Char → Except GoErr (Nat × Stream)
  users : UserDB
  fs : FS
  deco : DecodeOracle

/-- xopen.go lines 202-229: `XReader` resolves a descriptor to a raw stream
together with the fact that the handle is closable (`http.Response.Body` and
`os.File` are both `io.ReadCloser`s).  HTTP descriptors with a non-200
status fail with a message error; plain paths are `ExpandUser`-expanded,
directories are rejected with `ErrDirNotSupported`. -/
def XReader (env : REnv) (f : List Char) : Except GoErr (Stream × Bool) :=
  if (strL "http://").isPrefixOf f ∨ (strL "https://").isPrefixOf f then
    match env.http f with
    | .error e => .error e
    | .ok (status, body) =>
      if status ≠ 200 then .error (.strErr (strL "http error downloading"))
      else .ok (body, true)
  else
    match ExpandUser env.users f with
    | .error e => .error e
    | .ok f2 =>
      match lookupFS env.fs f2 with
      | none => .error .notFound
      | some .dir => .error .dirNotSupported
      | some (.file d) => .ok (⟨d, .eof⟩, true)

/-- The observable outcome of a call to `Ropen`: a reader, an error, or a
Go runtime panic (the only one reachable is the out-of-range index
`f[0]`). -/
inductive RopenOut
  | ok (r : Reader)
  | err (e : GoErr)
  | panicked
deriving DecidableEq

/-- Lift the result of `Buf` into an `Ropen` outcome. -/
def liftOut : Except GoErr Reader → RopenOut
  | .error e => .err e
  | .ok r => .ok r

/-- xopen.go lines 232-266: `Ropen`.  `-` requires stdin to be attached and
buffers it; otherwise the code evaluates `f[0]` — which panics when `f` is
the empty string — and a leading `|` spawns the command computed by
`pipeCommand`, taking the child's stdout as the raw source; everything else
goes through `XReader`.  The resolved raw stream is handed to `Buf`; stdin,
pipe stdout and `XReader` results are all closable raw sources. -/
def Ropen (env : REnv) (f : List Char) : RopenOut :=
  if f = strL "-" then
    if ¬ env.stdinAttached then .err (.strErr (strL "stdin not detected"))
    else liftOut (Buf env.deco env.stdin true)
  else
    match f with
    | [] => .panicked
    | c :: rest =>
      if c = '|' then
        let (name, args) := pipeCommand rest
        match env.spawn name args with
        | .error e => .err e
        | .ok s => liftOut (Buf env.deco s true)
      else
        match XReader env f with
        | .error e => .err e
        | .ok (s, cl) => liftOut (Buf env.deco s cl)

/-- Which compressing transform a `Writer` holds: exactly one of the
`gz`/`xw`/`zw` fields of xopen.go lines 120-126 is non-nil, or none. -/
inductive WFmt
  | plain
  | gz
  | xz
  | zst
deriving DecidableEq

/-- xopen.go lines 119-126: the composite writer.  The byte accounting
abstracts the layers' buffers: `buf` is what sits in the outer
`bufio.Writer`, `comp` what has entered the compressing transform but has
not yet been pushed to the raw sink, and `sunk` what has been handed to the
raw sink's encoder chain (the plaintext accounted for by bytes already
written out). -/
structure Writer where
  fmt : WFmt
  buf : List Nat
  comp : List Nat
  sunk : List Nat
deriving DecidableEq

/-- A step performed by `Writer.Flush` / `Writer.Close`. -/
inductive WAct
  | flushBuf
  | flushGz
  | flushZst
  | closeGz
  | closeXz
  | closeZst
  | closeRaw
deriving DecidableEq

/-- `bufio.Writer.Flush` (collaborator): moves the outer buffer's bytes to
whatever the buffer wraps — the compressing transform when one is active,
the raw sink otherwise. -/
def bufioFlushW (w : Writer) : Writer :=
  match w.fmt with
  | .plain => { w with buf := [], sunk := w.sunk ++ w.buf }
  | _ => { w with buf := [], comp := w.comp ++ w.buf }

/-- A compressing transform's explicit flush (`pgzip.Writer.Flush` /
`zstd.Encoder.Flush`, collaborators): drains the transform's internal buffer
to the raw sink. -/
def compFlushW (w : Writer) : Writer :=
  { w with comp := [], sunk := w.sunk ++ w.comp }

/-- A compressing transform's close (collaborator): drains any remaining
internal data (and trailer) to the raw sink. -/
def compCloseW (w : Writer) : Writer :=
  { w with comp := [], sunk := w.sunk ++ w.comp }

/-- xopen.go lines 145-153: `Writer.Flush` flushes the outer buffer, then
the gzip transform when present, then the zstd transform when present — the
xz transform is never flushed.  The action list records the steps taken. -/
def Writer.Flush (w : Writer) : Writer × List WAct :=
  let w1 := bufioFlushW w
  match w.fmt with
  | .gz => (compFlushW w1, [WAct.flushBuf, WAct.flushGz])
  | .zst => (compFlushW w1, [WAct.flushBuf, WAct.flushZst])
  | _ => (w1, [WAct.flushBuf])

/-- The errors the underlying layers would report during a close: the Go
code calls each step and discards its result, so these values are never
returned — they only let the ledger of `Writer.Close` show what was
discarded. -/
structure WEnv where
  flushErr : Option GoErr
  gzCloseErr : Option GoErr
  xzCloseErr : Option GoErr
  zstCloseErr : Option GoErr
  rawCloseErr : Option GoErr

/-- Turn one step's possible error into its ledger entry. -/
def optList : Option GoErr → List GoErr
  | none => []
  | some e => [e]

/-- The result of `Writer.Close`: final state, the ordered steps taken, the
errors the steps reported (and the code discarded), and the value the
method returns. -/
structure CloseRes where
  st : Writer
  trace : List WAct
  encountered : List GoErr
  ret : Option GoErr
deriving DecidableEq

/-- xopen.go lines 129-142: `Writer.Close` calls `Flush`, then `Close` on
whichever compressing transform is active, then `Close` on the raw sink
`wtr`; every step's error is discarded and the method returns `nil`. -/
def Writer.Close (w : Writer) (env : WEnv) : CloseRes :=
  let (w1, t1) := w.Flush
  let (w2, t2, e2) :=
    match w.fmt with
    | .gz => (compCloseW w1, [WAct.closeGz], optList env.gzCloseErr)
    | .xz => (compCloseW w1, [WAct.closeXz], optList env.xzCloseErr)
    | .zst => (compCloseW w1, [WAct.closeZst], optList env.zstCloseErr)
    | .plain => (w1, [], [])
  { st := w2
    trace := t1 ++ t2 ++ [WAct.closeRaw]
    encountered := optList env.flushErr ++ e2 ++ optList env.rawCloseErr
    ret := none }

/-- Model of Go `path/filepath.Dir` (collaborator): everything before the
last separator, cleaned; `.` when the path has no separator, `/` when the
only separator is the leading one. -/
def goDir (p : List Char) : List Char :=
  match p.reverse.dropWhile (fun c => c ≠ '/') with
  | [] => strL "."
  | r =>
    match r.dropWhile (fun c => c = '/') with
    | [] => strL "/"
    | r2 => r2.reverse

/-- Model of `os.MkdirAll` (collaborator): records the directory as
existing (intermediate parents elided — no theorem depends on them). -/
def mkdirAll (fs : FS) (d : List Char) : FS := (d, FsEntry.dir) :: fs

/-- Model of `os.OpenFile` (collaborator): opening an existing entry
succeeds; opening a missing path succeeds only when the flags contain
`os.O_CREATE` (bit 0x40 on Linux), creating an empty file — otherwise it
fails with the not-exist error.  The handle records the access mode, the
low two flag bits (`os.O_RDONLY`=0, `os.O_WRONLY`=1, `os.O_RDWR`=2). -/
def openFile (fs : FS) (f : List Char) (flag : Nat) : Except GoErr (Nat × FS) :=
  match lookupFS fs f with
  | some _ => .ok (flag % 4, fs)
  | none =>
    if flag % 128 / 64 = 1 then .ok (flag % 4, (f, FsEntry.file []) :: fs)
    else .error .notFound

/-- xopen.go lines 282-315: `WopenFile`.  `-` writes to stdout; otherwise
the parent directory is checked (`os.Stat`): an existing non-directory is
rejected with a message error, a missing one is created with `MkdirAll`,
then the target is opened with the caller's flags and permissions.  The
compressing transform is chosen purely by suffix of the lowercased
descriptor: `.gz`, `.xz`, `.zst`, else none.  Encoder-construction errors
of the xz/zstd collaborators are not modeled (they do not occur for a
well-formed sink). -/
def WopenFile (fs : FS) (f : List Char) (flag : Nat) (_perm : Nat) :
    Except GoErr (Writer × FS) :=
  let fmt :=
    if (strL ".gz").isSuffixOf (toLowerAscii f) then WFmt.gz
    else if (strL ".xz").isSuffixOf (toLowerAscii f) then WFmt.xz
    else if (strL ".zst").isSuffixOf (toLowerAscii f) then WFmt.zst
    else WFmt.plain
  if f = strL "-" then .ok (⟨fmt, [], [], []⟩, fs)
  else
    let d := goDir f
    match lookupFS fs d with
    | some (.file _) =>
      .error (.strErr (strL "can not write file into a non-directory path"))
    | some .dir =>
      match openFile fs f flag with
      | .error e => .error e
      | .ok (_, fs2) => .ok (⟨fmt, [], [], []⟩, fs2)
    | none =>
      match openFile (mkdirAll fs d) f flag with
      | .error e => .error e
      | .ok (_, fs2) => .ok (⟨fmt, [], [], []⟩, fs2)

/-- The Go constant `os.O_RDONLY` (0 on every platform Go supports). -/
def O_RDONLY : Nat := 0

/-- xopen.go lines 273-275: `Wopen` calls `WopenFile` with flags
`os.O_RDONLY` and permission bits `0`. -/
def Wopen (fs : FS) (f : List Char) : Except GoErr (Writer × FS) :=
  WopenFile fs f O_RDONLY 0

/-! Concrete fixtures used by the evaluation theorems, counterexamples and
witnesses below. -/

/-- A codec oracle for plain-content runs (never consulted on them). -/
def decoId : DecodeOracle := fun _ d => .ok d

/-- A codec oracle whose decoders all produce the single byte `0x41`. -/
def deco0 : DecodeOracle := fun _ _ => .ok [0x41]

/-- A six-byte stream starting with the zstd signature. -/
def zstStream : Stream := ⟨[0x28, 0xB5, 0x2f, 0xfd, 0x00, 0x00], Term.eof⟩

/-- A user database with a current user and one named user `bob`. -/
def dbEx : UserDB :=
  ⟨.ok (strL "/home/me"),
   fun u => if u = strL "bob" then .ok (strL "/home/bob") else .error .notFound⟩

/-- A plain writer holding one byte in its outer buffer. -/
def wEx : Writer := ⟨WFmt.plain, [0x41], [], []⟩

/-- An xz writer holding one byte in its outer buffer. -/
def wXz : Writer := ⟨WFmt.xz, [0x41], [], []⟩

/-- A gzip writer with bytes pending at every layer. -/
def wGzEx : Writer := ⟨WFmt.gz, [0x01, 0x02], [0x03], [0x04]⟩

/-- A close environment in which closing the raw sink reports an error. -/
def wEnvBad : WEnv := ⟨none, none, none, none, some GoErr.ioErr⟩

/-- A minimal `Ropen` environment: stdin is not attached, no subprocess or
HTTP collaborator succeeds, the filesystem is empty. -/
def envEx : REnv :=
  ⟨false, ⟨[], Term.eof⟩, fun _ _ => .error .notFound, fun _ => .error .notFound,
   ⟨.ok (strL "/home/me"), fun _ => .error .notFound⟩, [], fun _ d => .ok d⟩

/-! Helper lemmas about `splitCh`. -/

theorem splitCh_ne_nil (c : Char) (l : List Char) : splitCh c l ≠ [] := by
  induction l with
  | nil => simp [splitCh]
  | cons x xs ih =>
    simp only [splitCh]
    cases hsp : splitCh c xs with
    | nil => simp
    | cons y ys => by_cases hx : x = c <;> simp [hx]

theorem splitCh_no_sep (c : Char) (l : List Char) (h : c ∉ l) : splitCh c l = [l] := by
  induction l with
  | nil => rfl
  | cons x xs ih =>
    have hx : x ≠ c := fun he => h (he ▸ List.mem_cons_self x xs)
    have hxs : c ∉ xs := fun hm => h (List.mem_cons_of_mem _ hm)
    simp only [splitCh, ih hxs]
    simp [hx]

theorem splitCh_append (c : Char) (a r : List Char) (h : c ∉ a) :
    splitCh c (a ++ c :: r) = a :: splitCh c r := by
  induction a with
  | nil =>
    obtain ⟨y, ys, hsp⟩ : ∃ y ys, splitCh c r = y :: ys := by
      cases hr : splitCh c r with
      | nil => exact absurd hr (splitCh_ne_nil c r)
      | cons y ys => exact ⟨y, ys, rfl⟩
    simp only [List.nil_append, splitCh, hsp]
    simp
  | cons x xs ih =>
    have hx : x ≠ c := fun he => h (he ▸ List.mem_cons_self x xs)
    have hxs : c ∉ xs := fun hm => h (List.mem_cons_of_mem _ hm)
    simp only [List.cons_append, splitCh, List.append_eq]
    rw [ih hxs]
    simp [hx]

/-- Claim C1 (code bug): `Wopen` passes `os.O_RDONLY` and permission `0` to
`os.OpenFile`, so with the parent directory present and the target absent,
opening any of the three compressed descriptors for "write" fails with the
not-exist error (no `O_CREATE` in the flags) — no byte sequence can be
written, so the write/read round trip claimed for `.gz`/`.xz`/`.zst` is
impossible. -/
theorem C1_wopen_readonly_open_fails :
    Wopen [(strL ".", FsEntry.dir)] (strL "out.gz") = .error .notFound ∧
    Wopen [(strL ".", FsEntry.dir)] (strL "out.xz") = .error .notFound ∧
    Wopen [(strL ".", FsEntry.dir)] (strL "out.zst") = .error .notFound :=
  ⟨rfl, rfl, rfl⟩

/-- Claim C2 (code bug): a three-byte plain stream matches no signature, yet
`Buf` rejects it with `ErrNoContent`: the xz sniff needs six bytes, its peek
failure is turned into `ErrNoContent` by `CheckBytes`, and `Buf`'s benign
end-of-stream test compares against `io.EOF`, which `CheckBytes` never
returns. -/
theorem C2_short_plain_stream_rejected :
    Buf decoId ⟨[0x61, 0x62, 0x63], Term.eof⟩ true = .error .noContent := rfl

/-- Claim C3 (code bug): for the descriptor `|echo a b` the code spawns
`echo` with no arguments — the `len(cmdStrs) == 2` special case is the only
branch that forwards arguments, as the two-token descriptor `|echo a`
shows. -/
theorem C3_pipe_args_dropped :
    pipeCommand (strL "echo a b") = (strL "echo", []) ∧
    pipeCommand (strL "echo a") = (strL "echo", [strL "a"]) :=
  ⟨rfl, rfl⟩

/-- Claim C4, counterexample: closing a writer whose raw sink close reports
an I/O error still returns `nil` — the error encountered at the last step is
not the returned value, refuting "returns the last fatal error encountered
among the steps". -/
theorem C4_close_discards_error :
    (Writer.Close wEx wEnvBad).ret = none ∧
    (Writer.Close wEx wEnvBad).encountered = [GoErr.ioErr] :=
  ⟨rfl, rfl⟩

/-- Claim C4, amended: `Writer.Close` performs, in this fixed order, the
buffer flush (with the gzip/zstd transform flush inside `Flush`), the close
of the active compressing transform if any, then the close of the raw sink;
it attempts every step unconditionally, drains every pending byte to the
sink, and always returns `nil` — the steps' errors are discarded, never
returned.  (The `comp = []` hypothesis for a plain writer records that a
writer without a transform holds no compressor-internal bytes.) -/
theorem C4_close_order_and_nil_return : ∀ (w : Writer) (env : WEnv),
    (w.fmt = WFmt.plain → w.comp = []) →
    (w.Close env).ret = none ∧
    (w.Close env).trace = WAct.flushBuf ::
      (match w.fmt with
       | WFmt.plain => [WAct.closeRaw]
       | WFmt.gz => [WAct.flushGz, WAct.closeGz, WAct.closeRaw]
       | WFmt.xz => [WAct.closeXz, WAct.closeRaw]
       | WFmt.zst => [WAct.flushZst, WAct.closeZst, WAct.closeRaw]) ∧
    (w.Close env).st.buf = [] ∧ (w.Close env).st.comp = [] ∧
    (w.Close env).st.sunk = w.sunk ++ w.comp ++ w.buf := by
  intro w env hplain
  rcases w with ⟨fmt, buf, comp, sunk⟩
  cases fmt <;>
    simp_all [Writer.Close, Writer.Flush, bufioFlushW, compFlushW, compCloseW,
      List.append_assoc]

/-- Claim C4, witness for the amended statement at a gzip writer. -/
theorem C4_close_order_witness :
    (Writer.Close wGzEx wEnvBad).ret = none ∧
    (Writer.Close wGzEx wEnvBad).trace = WAct.flushBuf ::
      [WAct.flushGz, WAct.closeGz, WAct.closeRaw] ∧
    (Writer.Close wGzEx wEnvBad).st.buf = [] ∧
    (Writer.Close wGzEx wEnvBad).st.comp = [] ∧
    (Writer.Close wGzEx wEnvBad).st.sunk = wGzEx.sunk ++ wGzEx.comp ++ wGzEx.buf :=
  C4_close_order_and_nil_return wGzEx wEnvBad (fun h => by cases h)

/-- Claim C5, counterexample: with `bob`'s home directory `/home/bob`,
`ExpandUser "~bob/rest"` yields `/home/bob/bob/rest` — the looked-up user
name is not removed from the remainder, so the result is not the home
directory joined with `rest`. -/
theorem C5_tilde_user_not_stripped :
    ExpandUser dbEx (strL "~bob/rest") = .ok (strL "/home/bob/bob/rest") ∧
    strL "/home/bob/bob/rest" ≠ strL "/home/bob/rest" :=
  ⟨rfl, by decide⟩

/-- Claim C5, amended: for `~user/rest` (user name non-empty, without `/`),
`ExpandUser` returns the named user's home directory, a `/`, and the whole
original remainder `user/rest` (the user name is kept); for `~/rest` it
returns the current user's home directory, a `/`, and the remainder
`/rest`; a failed lookup of the named user propagates the lookup error. -/
theorem C5_expanduser_amended :
    (∀ (db : UserDB) (user rest home : List Char),
      user ≠ [] → user.head? ≠ some '/' → '/' ∉ user →
      db.lookup user = .ok home →
      ExpandUser db ('~' :: (user ++ '/' :: rest)) =
        .ok (home ++ '/' :: (user ++ '/' :: rest))) ∧
    (∀ (db : UserDB) (rest home : List Char),
      db.current = .ok home →
      ExpandUser db ('~' :: '/' :: rest) = .ok (home ++ '/' :: '/' :: rest)) ∧
    (∀ (db : UserDB) (user rest : List Char) (e : GoErr),
      user ≠ [] → user.head? ≠ some '/' → '/' ∉ user →
      db.lookup user = .error e →
      ExpandUser db ('~' :: (user ++ '/' :: rest)) = .error e) := by
  refine ⟨?_, ?_, ?_⟩
  · intro db user rest home hne hh hnin hlk
    cases user with
    | nil => exact absurd rfl hne
    | cons u0 us =>
      have hu0 : u0 ≠ '/' := fun h0 => hh (by simp [h0])
      have hsp : splitCh '/' (u0 :: (us ++ '/' :: rest)) = (u0 :: us) :: splitCh '/' rest :=
        splitCh_append '/' (u0 :: us) rest hnin
      simp only [List.cons_append, ExpandUser]
      rw [if_neg (fun hc => hc rfl)]
      rw [if_neg (by simp [hu0])]
      rw [hsp]
      simp only [headSplit]
      rw [hlk]
  · intro db rest home hcur
    simp only [ExpandUser]
    rw [if_neg (fun hc => hc rfl)]
    have hcond : ('/' :: rest = [] ∨ ('/' :: rest).head? = some '/') := Or.inr rfl
    rw [if_pos hcond, hcur]
  · intro db user rest e hne hh hnin hlk
    cases user with
    | nil => exact absurd rfl hne
    | cons u0 us =>
      have hu0 : u0 ≠ '/' := fun h0 => hh (by simp [h0])
      have hsp : splitCh '/' (u0 :: (us ++ '/' :: rest)) = (u0 :: us) :: splitCh '/' rest :=
        splitCh_append '/' (u0 :: us) rest hnin
      simp only [List.cons_append, ExpandUser]
      rw [if_neg (fun hc => hc rfl)]
      rw [if_neg (by simp [hu0])]
      rw [hsp]
      simp only [headSplit]
      rw [hlk]

/-- Claim C5, witness for the amended statement: expanding `~bob/rest` with
`bob`'s home `/home/bob`. -/
theorem C5_expanduser_amended_witness :
    ExpandUser dbEx ('~' :: (strL "bob" ++ '/' :: strL "rest")) =
      .ok (strL "/home/bob" ++ '/' :: (strL "bob" ++ '/' :: strL "rest")) :=
  C5_expanduser_amended.1 dbEx (strL "bob") (strL "rest") (strL "/home/bob")
    (by decide) (by decide) (by decide) rfl

/-- Claim C6, counterexample: opening a zstd-signature stream succeeds, yet
the resulting reader holds no transform handle (`gz = false` — the zstd
decoder was created in the local `rd` and dropped), so `Close` tears down
only the raw source: the selected decompressing transform is never torn
down. -/
theorem C6_zstd_transform_not_closed :
    Buf deco0 zstStream true = .ok ⟨[0x41], true, false⟩ ∧
    Reader.Close ⟨[0x41], true, false⟩ = ([RAct.closeRdr], none) :=
  ⟨rfl, rfl⟩

/-- Claim C6, amended: `Reader.Close` tears down the gzip transform — the
only transform the reader retains — at most once and before the raw source,
tears down the raw source at most once (when it is closable), and discards
every teardown error, returning `nil`, so no layer's failure can prevent the
teardown of the rest; xz and zstd transforms are not closed at all. -/
theorem C6_reader_close_amended : ∀ r : Reader,
    (r.Close).2 = none ∧
    ((r.Close).1.count RAct.closeGzip = if r.gz then 1 else 0) ∧
    ((r.Close).1.count RAct.closeRdr = if r.rdrClosable then 1 else 0) ∧
    (r.gz = true → r.rdrClosable = true →
      (r.Close).1 = [RAct.closeGzip, RAct.closeRdr]) := by
  intro r
  rcases r with ⟨d, cl, gz⟩
  cases cl <;> cases gz <;>
    simp [Reader.Close, List.count_cons, List.count_nil]

/-- Claim C6, witness for the amended statement at a gzip-backed reader with
a closable raw source. -/
theorem C6_reader_close_amended_witness :
    (Reader.Close ⟨[], true, true⟩).1 = [RAct.closeGzip, RAct.closeRdr] :=
  (C6_reader_close_amended ⟨[], true, true⟩).2.2.2 rfl rfl

/-- Claim C7, counterexample: a stream holding one byte whose next read
fails with a genuine (non-EOF) I/O error is still reported by `CheckBytes`
as `ErrNoContent` — not as a distinct generic I/O error, so the two cases
are not distinguishable. -/
theorem C7_read_failure_reported_as_nocontent :
    CheckBytes ⟨[0x1f], Term.ioErr⟩ gzipMagic = (false, some GoErr.noContent) ∧
    GoErr.noContent ≠ GoErr.ioErr :=
  ⟨rfl, by decide⟩

/-- Claim C7, amended: `CheckBytes` signals `ErrNoContent` exactly when the
stream holds fewer bytes than the requested signature length — whatever the
reason the peek failed, a normal end of stream or a genuine read failure
alike; no other error value is ever produced. -/
theorem C7_checkbytes_nocontent_iff_short : ∀ (s : Stream) (pat : List Nat),
    (CheckBytes s pat).2 =
      if s.data.length < pat.length then some GoErr.noContent else none := by
  intro s pat
  simp only [CheckBytes, peek]
  by_cases h : pat.length ≤ s.data.length
  · simp [h, Nat.not_lt.mpr h]
  · simp [h, Nat.lt_of_not_le h]

/-- Claim C8, counterexample: flushing an xz writer with one byte pending in
the outer buffer moves the byte only into the compressing transform — the
transform's internal buffer is not flushed, so the byte is not handed to the
raw sink, refuting the claim for the xz transform. -/
theorem C8_xz_not_flushed :
    (Writer.Flush wXz).1.sunk ≠ wXz.sunk ++ wXz.comp ++ wXz.buf ∧
    (Writer.Flush wXz).1.comp = [0x41] :=
  ⟨by decide, rfl⟩

/-- Claim C8, amended: for an active gzip or zstd transform, `Writer.Flush`
drains the outer buffer and then the transform's internal buffer, after
which every byte written so far has been handed to the raw sink's encoder
chain; for the xz transform only the outer buffer is drained — its bytes
stay inside the transform until `Close`. -/
theorem C8_flush_amended : ∀ w : Writer,
    ((w.fmt = WFmt.gz ∨ w.fmt = WFmt.zst) →
      (w.Flush).1 = ⟨w.fmt, [], [], w.sunk ++ w.comp ++ w.buf⟩) ∧
    (w.fmt = WFmt.xz → (w.Flush).1 = ⟨WFmt.xz, [], w.comp ++ w.buf, w.sunk⟩) := by
  intro w
  rcases w with ⟨fmt, buf, comp, sunk⟩
  cases fmt <;>
    simp [Writer.Flush, bufioFlushW, compFlushW, List.append_assoc]

/-- Claim C8, witness for the amended statement at a gzip writer with bytes
pending at every layer. -/
theorem C8_flush_amended_witness :
    (Writer.Flush wGzEx).1 = ⟨WFmt.gz, [], [], wGzEx.sunk ++ wGzEx.comp ++ wGzEx.buf⟩ :=
  (C8_flush_amended wGzEx).1 (Or.inl rfl)

/-- `liftOut` never produces the panic outcome. -/
theorem liftOut_ne_panicked (x : Except GoErr Reader) :
    liftOut x ≠ RopenOut.panicked := by
  cases x <;> simp [liftOut]

/-- Claim C9, counterexample: `Ropen` on the empty descriptor evaluates
`f[0]` and panics with an out-of-range index instead of returning a reader
or a classified error. -/
theorem C9_empty_descriptor_out_of_bounds :
    Ropen envEx [] = RopenOut.panicked := rfl

/-- Claim C9, amended: for every non-empty descriptor `Ropen` is total — it
returns a composite reader or a classified error and performs no
out-of-bounds access; the empty descriptor is the single exception, where
indexing `f[0]` panics. -/
theorem C9_ropen_total_on_nonempty : ∀ (env : REnv) (f : List Char),
    f ≠ [] → Ropen env f ≠ RopenOut.panicked := by
  intro env f hf
  unfold Ropen
  repeat' split
  all_goals first
    | exact liftOut_ne_panicked _
    | exact absurd rfl hf
    | (intro hc; cases hc)

/-- Claim C9, witness for the amended statement at a one-character
descriptor. -/
theorem C9_ropen_total_witness : Ropen envEx (strL "x") ≠ RopenOut.panicked :=
  C9_ropen_total_on_nonempty envEx (strL "x") (by decide)

/-- Claim C10 (confirmed): if the decoded stream starts with the bytes
`EF BB BF` — the UTF-8 encoding of U+FEFF — the BOM step discards exactly
those three bytes and reading starts after them; if the first decoded code
point is anything else the stream is left unchanged; an empty decoded
stream yields the distinguished no-content condition. -/
theorem C10_bom_handling :
    (∀ rest : List Nat, bomStrip (0xEF :: 0xBB :: 0xBF :: rest) = .ok rest) ∧
    (∀ (d : List Nat) (r n : Nat), d ≠ [] → utf8DecodeRune d = (r, n) →
      r ≠ 0xFEFF → bomStrip d = .ok d) ∧
    bomStrip [] = .error .noContent := by
  refine ⟨fun rest => rfl, ?_, rfl⟩
  intro d r n hne hdec hr
  cases d with
  | nil => exact absurd rfl hne
  | cons b tl =>
    simp only [bomStrip]
    rw [hdec]
    exact if_neg hr

/-- Claim C10, witness: a stream whose first code point is `A` is preserved
unchanged. -/
theorem C10_bom_handling_witness : bomStrip [0x41] = .ok [0x41] :=
  C10_bom_handling.2.1 [0x41] 0x41 1 (by decide) rfl (by decide)

end Xopen
